import Mathlib

/-!
Verification development for the graphql-query-toolkit repository.

The development shallowly embeds the three core source units:
  * `src/core/codegen.ts` — `createCodegenConfig` (the endpoint configuration
    compiler) together with the fetcher whose source text it embeds in the
    react-query generation target;
  * `src/core/utils.ts` — `createQueryKeys`, `createUtilsFactory` and the five
    per-operation cache facade methods;
  * the cache-utils codegen plugin (shipped next to `src/cli.js`) —
    `extractServiceName` and `extractShortName`, the naming-inference helpers.

JavaScript records are embedded as association lists (`List (String × _)`),
property lookup as `List.lookup` (first binding wins), and machine-level JS
values as the inductive types `JPrim` (primitive values, used where the code
compares values with `===`) and `JVal` (arbitrary JSON-like values).  The
external cache client (`@tanstack/react-query`) is not part of the repository;
its operations are modelled from the contract stated in the specification
(`invalidateQueries`/`refetchQueries`/`cancelQueries` with a query-key prefix
plus optional predicate, `getQueryData`/`setQueryData` keyed exactly), with
cache entries carried as an explicit list and effects as boolean marks.
-/

/-- Primitive JavaScript values: the values that appear inside variables
records and filter records, where the code compares with `===`. -/
inductive JPrim where
  | null
  | bool (b : Bool)
  | num (n : Int)
  | str (s : String)
  deriving DecidableEq

/-- JSON-like JavaScript values, used for response bodies and cached data. -/
inductive JVal where
  | null
  | bool (b : Bool)
  | num (n : Int)
  | str (s : String)
  | arr (elems : List JVal)
  | obj (fields : List (String × JVal))

/-- JavaScript truthiness of a `JVal`.  Arrays and objects are always truthy;
`NaN` is not modelled (`num` is an integer). -/
def truthy : JVal → Bool
  | JVal.null => false
  | JVal.bool b => b
  | JVal.num n => decide (n ≠ 0)
  | JVal.str s => decide (s ≠ "")
  | JVal.arr _ => true
  | JVal.obj _ => true

/-- Indexing `v[i]` on a `JVal`: array indexing, or string-keyed lookup on an
object; on primitives the property is absent (JS yields `undefined`). -/
def jindex (v : JVal) (i : Nat) : Option JVal :=
  match v with
  | JVal.arr elems => elems[i]?
  | JVal.obj fields => List.lookup (toString i) fields
  | _ => none

/-- Destructuring `const { field } = v` in JavaScript: `none` models the
TypeError raised when `v` is `undefined` or `null`; `some m` binds the field
(`m = none` models binding `undefined`).  Built-in properties of primitives
(such as `length` on strings) are not modelled. -/
def destructureField (v : Option JVal) (field : String) : Option (Option JVal) :=
  match v with
  | none => none
  | some JVal.null => none
  | some (JVal.obj fields) => some (List.lookup field fields)
  | some _ => some none

/-- Boolean test that `p` occurs at the start of `s` (literal match). -/
def leadsWith {α : Type} [DecidableEq α] : List α → List α → Bool
  | [], _ => true
  | _ :: _, [] => false
  | a :: as, b :: bs => decide (a = b) && leadsWith as bs

/-- Boolean test that `pat` occurs somewhere inside `s` as a contiguous
substring, as JavaScript `String.prototype.includes`. -/
def containsSub (pat : List Char) : List Char → Bool
  | [] => leadsWith pat []
  | c :: rest => leadsWith pat (c :: rest) || containsSub pat rest

/-- Word characters, the character class `\w` of JavaScript regexes. -/
def isWordChar (c : Char) : Bool := c.isAlphanum || c = '_'

/-- Matching the anchored regex `^Pre(\w+)Suf` against `s` with JavaScript
greedy semantics: the returned capture is the longest nonempty word-character
group such that the literal `suf` follows it; `none` when the regex does not
match. -/
def matchCapture (pre suf s : List Char) : Option (List Char) :=
  if leadsWith pre s then
    let rest := s.drop pre.length
    if suf.isEmpty then
      let cap := rest.takeWhile isWordChar
      if cap.isEmpty then none else some cap
    else
      List.findSome? (fun j =>
        let k := rest.length - j
        if 1 ≤ k ∧ (rest.take k).all isWordChar ∧ leadsWith suf (rest.drop k)
        then some (rest.take k) else none) (List.range rest.length)
  else none

/-- Transform applied by every pattern of `extractServiceName`:
`match[1].toLowerCase() + 's'`. -/
def lowerPlural (cap : List Char) : List Char := cap.map Char.toLower ++ ['s']

/-- Embedding of `extractServiceName` from the cache-utils codegen plugin:
the ordered pattern list `^Get(\w+)Service`, `^(\w+)Service`, `^Get(\w+)`,
`^Create(\w+)`, `^Update(\w+)`, `^Delete(\w+)`, first match wins, each
transformed by lowercasing the capture and appending `s`; fallback
`"general"`. -/
def extractServiceName (operationName : String) : String :=
  let s := operationName.data
  match matchCapture "Get".data "Service".data s with
  | some cap => String.mk (lowerPlural cap)
  | none =>
  match matchCapture [] "Service".data s with
  | some cap => String.mk (lowerPlural cap)
  | none =>
  match matchCapture "Get".data [] s with
  | some cap => String.mk (lowerPlural cap)
  | none =>
  match matchCapture "Create".data [] s with
  | some cap => String.mk (lowerPlural cap)
  | none =>
  match matchCapture "Update".data [] s with
  | some cap => String.mk (lowerPlural cap)
  | none =>
  match matchCapture "Delete".data [] s with
  | some cap => String.mk (lowerPlural cap)
  | none => "general"

/-- JavaScript `s.replace(/^pre/, '')` for a literal `pre`. -/
def stripStart (pre s : List Char) : List Char :=
  if leadsWith pre s then s.drop pre.length else s

/-- JavaScript `s.replace(/^(alt1|alt2|...)tail0/, '')`: the first alternative
(in order) such that the alternative followed by `tail0` starts the string is
removed together with `tail0`. -/
def stripStartAlt (alts : List (List Char)) (tail0 s : List Char) : List Char :=
  match List.find? (fun a => leadsWith (a ++ tail0) s) alts with
  | some a => s.drop (a.length + tail0.length)
  | none => s

/-- JavaScript `s.replace(/pat/, '')` for a literal `pat`: removes the first
occurrence, leaves the string unchanged when there is none. -/
def removeFirstOcc (pat : List Char) : List Char → List Char
  | [] => []
  | c :: rest =>
    if leadsWith pat (c :: rest) then (c :: rest).drop pat.length
    else c :: removeFirstOcc pat rest

/-- Alternatives of the `(Get|Create|Update|Delete)` group, in source order. -/
def crudAlts : List (List Char) := ["Get".data, "Create".data, "Update".data, "Delete".data]

/-- Embedding of `extractShortName` from the cache-utils codegen plugin: the
NotificationService special case strips `(Get|Create|Update|Delete)NotificationService`
then a further leading `Get`; the general path strips a leading
`Get|Create|Update|Delete`, the first `Service` occurrence, then leading
`User` and `Booking`; the result is prefixed with `get`. -/
def extractShortName (operationName : String) : String :=
  let s := operationName.data
  let shortName :=
    if containsSub "NotificationService".data s then
      stripStart "Get".data (stripStartAlt crudAlts "NotificationService".data s)
    else
      stripStart "Booking".data (stripStart "User".data
        (removeFirstOcc "Service".data (stripStartAlt crudAlts [] s)))
  "get" ++ String.mk shortName

/-- A variables record: the `variables` argument of the generated hooks and of
the cache facade, a flat record of primitive values. -/
abbrev Vars := List (String × JPrim)

/-- One element of a react-query cache key: the operation-name string or the
variables record. -/
inductive KeyElem where
  | opStr (s : String)
  | varsObj (vs : Vars)
  deriving DecidableEq

/-- Embedding of the key-construction closure installed by `createQueryKeys`
for one operation: `variables === undefined ? [operationName] :
[operationName, variables]`. -/
def queryKeyFun (operationName : String) : Option Vars → List KeyElem
  | none => [KeyElem.opStr operationName]
  | some v => [KeyElem.opStr operationName, KeyElem.varsObj v]

/-- Embedding of `createQueryKeys` from `src/core/utils.ts`: a record mapping
each operation name to its key-construction function. -/
def createQueryKeys (operations : List String) : List (String × (Option Vars → List KeyElem)) :=
  operations.map (fun operationName => (operationName, queryKeyFun operationName))

/-- One entry of the external cache client's store: its full query key, the
cached data, and boolean marks recording the delegated effects (made stale,
refetch triggered, in-flight request aborted). -/
structure CacheQuery where
  queryKey : List KeyElem
  data : Option JVal := none
  stale : Bool := false
  refetching : Bool := false
  aborted : Bool := false

/-- Cache-client state: the list of live cache entries. -/
abbrev ClientState := List CacheQuery

/-- Modelled from the spec's cache-client contract: an entry matches a query
filter when the supplied key is an initial segment of the entry's key and the
optional predicate accepts the entry. -/
def queryFilterMatches (queryKey : List KeyElem) (predicate : Option (CacheQuery → Bool))
    (q : CacheQuery) : Bool :=
  leadsWith queryKey q.queryKey &&
    (match predicate with
     | none => true
     | some p => p q)

/-- Modelled from the spec's cache-client contract:
`invalidateQueries({queryKey, predicate?})` marks every matching entry stale. -/
def invalidateQueries (queryKey : List KeyElem) (predicate : Option (CacheQuery → Bool))
    (qc : ClientState) : ClientState :=
  qc.map (fun q => if queryFilterMatches queryKey predicate q then { q with stale := true } else q)

/-- Modelled from the spec's cache-client contract:
`refetchQueries({queryKey, predicate?})` triggers re-execution of every
matching entry, recorded here as a boolean mark. -/
def refetchQueries (queryKey : List KeyElem) (predicate : Option (CacheQuery → Bool))
    (qc : ClientState) : ClientState :=
  qc.map (fun q => if queryFilterMatches queryKey predicate q then { q with refetching := true } else q)

/-- Modelled from the spec's cache-client contract:
`cancelQueries({queryKey, predicate?})` aborts in-flight requests of every
matching entry, recorded here as a boolean mark. -/
def cancelQueries (queryKey : List KeyElem) (predicate : Option (CacheQuery → Bool))
    (qc : ClientState) : ClientState :=
  qc.map (fun q => if queryFilterMatches queryKey predicate q then { q with aborted := true } else q)

/-- Modelled from the spec's cache-client contract: `getQueryData(key)` is a
synchronous read at the exact key, `undefined` (`none`) when absent. -/
def getQueryData (key : List KeyElem) (qc : ClientState) : Option JVal :=
  match qc.find? (fun q => decide (q.queryKey = key)) with
  | some q => q.data
  | none => none

/-- Modelled from the spec's cache-client contract: `setQueryData(key, value)`
writes the exact key, updating the entry when present and inserting a fresh
entry otherwise. -/
def setQueryData (key : List KeyElem) (value : JVal) (qc : ClientState) : ClientState :=
  if qc.any (fun q => decide (q.queryKey = key)) then
    qc.map (fun q => if q.queryKey = key then { q with data := some value } else q)
  else
    qc ++ [{ queryKey := key, data := some value }]

/-- The stored variables segment of a cache key: `query.queryKey[1]`, read as
a record when it is one (JS yields `undefined` otherwise). -/
def varsOfKey (key : List KeyElem) : Option Vars :=
  match key[1]? with
  | some (KeyElem.varsObj vs) => some vs
  | _ => none

/-- Embedding of the predicate closure of `invalidate`/`refetch`/`cancel` in
`src/core/utils.ts`: `Object.entries(filters).every(([key, value]) =>
variables?.[key] === value)` where `variables = query.queryKey[1]`. -/
def filterPred (filters : Vars) (q : CacheQuery) : Bool :=
  filters.all (fun kv =>
    match varsOfKey q.queryKey with
    | some vs => decide (List.lookup kv.1 vs = some kv.2)
    | none => false)

/-- Embedding of the `invalidate` facade method from `src/core/utils.ts`:
with a nonempty filters record it invalidates by key plus predicate, otherwise
by key alone. -/
def opInvalidate (operationName : String) (filters : Option Vars) (qc : ClientState) : ClientState :=
  match filters with
  | some fs =>
    if fs.length > 0 then
      invalidateQueries [KeyElem.opStr operationName] (some (filterPred fs)) qc
    else
      invalidateQueries [KeyElem.opStr operationName] none qc
  | none => invalidateQueries [KeyElem.opStr operationName] none qc

/-- Embedding of the `refetch` facade method, identical filter semantics. -/
def opRefetch (operationName : String) (filters : Option Vars) (qc : ClientState) : ClientState :=
  match filters with
  | some fs =>
    if fs.length > 0 then
      refetchQueries [KeyElem.opStr operationName] (some (filterPred fs)) qc
    else
      refetchQueries [KeyElem.opStr operationName] none qc
  | none => refetchQueries [KeyElem.opStr operationName] none qc

/-- Embedding of the `cancel` facade method, identical filter semantics. -/
def opCancel (operationName : String) (filters : Option Vars) (qc : ClientState) : ClientState :=
  match filters with
  | some fs =>
    if fs.length > 0 then
      cancelQueries [KeyElem.opStr operationName] (some (filterPred fs)) qc
    else
      cancelQueries [KeyElem.opStr operationName] none qc
  | none => cancelQueries [KeyElem.opStr operationName] none qc

/-- Lookup of `queryKeys[operationName]`.  In JavaScript a missing operation
would raise a TypeError at the call site; the factory is always supplied a key
function for every operation, and the default is an inert function so that the
embedding stays total. -/
def lookupQueryKey (queryKeys : List (String × (Option Vars → List KeyElem)))
    (operationName : String) : Option Vars → List KeyElem :=
  (List.lookup operationName queryKeys).getD (fun _ => [])

/-- The five facade methods attached per operation by `createUtilsFactory`,
with the injected cache client threaded as explicit state. -/
structure OpHandle where
  invalidate : Option Vars → ClientState → ClientState
  refetch : Option Vars → ClientState → ClientState
  getData : Option Vars → ClientState → Option JVal
  setData : JVal → Option Vars → ClientState → ClientState
  cancel : Option Vars → ClientState → ClientState

/-- The object literal built per operation inside `createUtilsFactory`. -/
def mkOperationUtils (queryKeys : List (String × (Option Vars → List KeyElem)))
    (operationName : String) : OpHandle where
  invalidate := opInvalidate operationName
  refetch := opRefetch operationName
  getData := fun vars qc => getQueryData (lookupQueryKey queryKeys operationName vars) qc
  setData := fun data vars qc => setQueryData (lookupQueryKey queryKeys operationName vars) data qc
  cancel := opCancel operationName

/-- JavaScript `str.charAt(0).toLowerCase() + str.slice(1)`. -/
def camelCase (s : String) : String :=
  match s.data with
  | [] => ""
  | c :: rest => String.mk (c.toLower :: rest)

/-- Configuration record of `createUtilsFactory`. -/
structure UtilsConfig where
  queryKeys : List (String × (Option Vars → List KeyElem))
  groups : List (String × List String)

/-- Embedding of `createUtilsFactory` from `src/core/utils.ts`: the nested
utils object, group name to camel-cased operation name to facade handle.  The
source closes each method over the injected query client; here the client
state is an explicit argument of each method. -/
def createUtilsFactory (config : UtilsConfig) : List (String × List (String × OpHandle)) :=
  config.groups.map (fun g =>
    (g.1, g.2.map (fun operationName =>
      (camelCase operationName, mkOperationUtils config.queryKeys operationName))))

/-- Navigation `utils[groupName][operationCamelName]` on the built object. -/
def lookupHandle (utils : List (String × List (String × OpHandle)))
    (groupName opKey : String) : Option OpHandle :=
  (List.lookup groupName utils).bind (fun m => List.lookup opKey m)

/-- Description, in the words of the specification, of which entries an
`invalidate` call touches: with absent or empty filters, every entry whose
key's first segment equals the operation name; with nonempty filters, the
entries of that operation whose stored variables segment satisfies every
filter pair by exact equality, an entry whose variables lack a filter key
never matching. -/
def specShouldInvalidate (operationName : String) (filters : Option Vars) (q : CacheQuery) : Bool :=
  match filters with
  | none => decide (q.queryKey.head? = some (KeyElem.opStr operationName))
  | some [] => decide (q.queryKey.head? = some (KeyElem.opStr operationName))
  | some fs =>
    decide (q.queryKey.head? = some (KeyElem.opStr operationName)) &&
      fs.all (fun kv => decide ((varsOfKey q.queryKey).bind (fun vs => List.lookup kv.1 vs) = some kv.2))

/-- Embedding of `EndpointConfig` from `src/core/codegen.ts`. -/
structure EndpointConfig where
  schema : String
  headers : List (String × String) := []
  documentsPath : String
  gatewayEndpoint : String

/-- Embedding of `CodegenOptions` from `src/core/codegen.ts`; the endpoints
record is an association list whose keys are unique by construction. -/
structure CodegenOptions where
  endpoints : List (String × EndpointConfig)
  baseOutputDir : Option String := none
  reactQueryVersion : Option Nat := none
  appName : Option String := none

/-- One generation target of the plan handed to the external code generator;
the fields record the configuration data the source stores in each target
(the react-query target's fetcher closes over the gateway endpoint). -/
structure GenTarget where
  preset : Option String := none
  schemaUrl : String
  schemaHeaders : List (String × String) := []
  documents : List String := []
  plugins : List String := []
  fetcherEndpoint : Option String := none
  reactQueryVersion : Option Nat := none
  configServiceName : Option String := none
  configAppName : Option String := none
  configEndpoints : List String := []

/-- The four generation targets emitted per endpoint by
`createCodegenConfig`, keyed by output path, in source order. -/
def endpointTargets (baseOutputDir name : String) (config : EndpointConfig) :
    List (String × GenTarget) :=
  let outputDir := baseOutputDir ++ "/" ++ name
  let pluginsDirectory := outputDir ++ "/plugins"
  [ (outputDir ++ "/",
      { preset := some "client", schemaUrl := config.schema,
        schemaHeaders := config.headers, documents := [config.documentsPath] }),
    (pluginsDirectory ++ "/graphql-request.ts",
      { schemaUrl := config.schema, schemaHeaders := config.headers,
        documents := [config.documentsPath],
        plugins := ["typescript", "typescript-operations", "typescript-graphql-request"] }),
    (pluginsDirectory ++ "/react-query.ts",
      { schemaUrl := config.schema, schemaHeaders := config.headers,
        documents := [config.documentsPath],
        plugins := ["typescript", "typescript-operations", "typescript-react-query"],
        fetcherEndpoint := some config.gatewayEndpoint }),
    (outputDir ++ "/cache-utils.ts",
      { schemaUrl := config.schema, schemaHeaders := config.headers,
        documents := [config.documentsPath],
        plugins := ["cache-utils.plugin.cjs"],
        configServiceName := some name }) ]

/-- The value returned by `createCodegenConfig`. -/
structure CodegenConfigResult where
  ignoreNoDocuments : Bool
  generates : List (String × GenTarget)

/-- Embedding of `createCodegenConfig` from `src/core/codegen.ts`: four
generation targets per endpoint plus, when at least one endpoint exists, a
single README documentation target keyed at a fixed path. -/
def createCodegenConfig (options : CodegenOptions) : CodegenConfigResult :=
  let baseOutputDir := options.baseOutputDir.getD "src/libs/gql/__gen__"
  let appName := options.appName.getD "your app"
  let endpointNames := options.endpoints.map Prod.fst
  let perEndpoint := options.endpoints.flatMap (fun p => endpointTargets baseOutputDir p.1 p.2)
  let readme : List (String × GenTarget) :=
    match options.endpoints.head? with
    | some firstEntry =>
      [ (baseOutputDir ++ "/../README.md",
          { schemaUrl := firstEntry.2.schema, schemaHeaders := firstEntry.2.headers,
            plugins := ["readme-generator.plugin.cjs"],
            configAppName :=
              some (appName ++ " (Multi-endpoint: " ++ String.intercalate ", " endpointNames ++ ")"),
            configEndpoints := endpointNames }) ]
    | none => []
  { ignoreNoDocuments := true, generates := perEndpoint ++ readme }

/-- A value inside the fetcher's dynamic `options` record: a string (header
value or endpoint URL) or a nested string record (the `customHeaders`
wrapper field). -/
inductive OptVal where
  | str (s : String)
  | hdrs (entries : List (String × String))
  deriving DecidableEq

/-- JavaScript `'k' in o` for a record `o`. -/
def hasKey {α : Type} (o : List (String × α)) (k : String) : Bool :=
  o.any (fun e => decide (e.1 = k))

/-- JavaScript object spread `{...a, ...b}`: the keys of `a` in order with
values overridden by `b` where present, followed by the keys of `b` absent
from `a`. -/
def spreadMerge {α : Type} (a b : List (String × α)) : List (String × α) :=
  a.map (fun e =>
    match List.lookup e.1 b with
    | some v => (e.1, v)
    | none => e) ++
  b.filter (fun e => ! hasKey a e.1)

/-- The outgoing request assembled by the fetcher before the network call. -/
structure FetchRequest where
  url : String
  method : String
  headers : List (String × OptVal)
  bodyQuery : String
  bodyVariables : Option JVal

/-- Embedding of the request-building half of the fetcher embedded by
`createCodegenConfig` in the react-query target: disambiguates the dynamic
`options` argument by presence of the `customHeaders` or `endpoint` keys,
otherwise treats the whole record as a flat header map; defaults the target
to the configured gateway endpoint; always sends a JSON POST with the default
`Content-Type` overridable by custom headers.  Spreading a non-record
`customHeaders` value and a non-string `endpoint` value are not modelled
(the source's `||` fallbacks apply to the modelled falsy cases). -/
def fetcherRequest (gatewayEndpoint query : String) (vars : Option JVal)
    (options : Option (List (String × OptVal))) : FetchRequest :=
  let resolved : List (String × OptVal) × String :=
    match options with
    | none => ([], gatewayEndpoint)
    | some o =>
      if hasKey o "customHeaders" || hasKey o "endpoint" then
        let customHeaders :=
          match List.lookup "customHeaders" o with
          | some (OptVal.hdrs entries) => entries.map (fun e => (e.1, OptVal.str e.2))
          | _ => []
        let endpoint :=
          match List.lookup "endpoint" o with
          | some (OptVal.str s) => if s = "" then gatewayEndpoint else s
          | _ => gatewayEndpoint
        (customHeaders, endpoint)
      else (o, gatewayEndpoint)
  { url := resolved.2, method := "POST",
    headers := spreadMerge [("Content-Type", OptVal.str "application/json")] resolved.1,
    bodyQuery := query, bodyVariables := vars }

/-- Outcome of the fetcher's response handling: resolve with `json.data`,
fail with a thrown bare message value, or fail with a runtime TypeError. -/
inductive FetchOutcome where
  | ok (data : Option JVal)
  | thrown (message : Option JVal)
  | typeError

/-- Embedding of the response-handling half of the fetcher: when
`json.errors` is truthy, destructure `message` out of `json.errors[0]` and
throw it; otherwise return `json.data`. -/
def handleResponse (json : List (String × JVal)) : FetchOutcome :=
  match List.lookup "errors" json with
  | some ev =>
    if truthy ev then
      match destructureField (jindex ev 0) "message" with
      | some m => FetchOutcome.thrown m
      | none => FetchOutcome.typeError
    else FetchOutcome.ok (List.lookup "data" json)
  | none => FetchOutcome.ok (List.lookup "data" json)

/-- Data-level form of an endpoint-relative output path:
`baseOutputDir ++ "/" ++ name ++ suffix`. -/
def pathKey (b n : String) (s : List Char) : List Char :=
  b.data ++ '/' :: (n.data ++ s)

/-- The four per-endpoint output-path suffixes, in source order. -/
def pathSuffixes : List (List Char) :=
  ["/".data, "/plugins/graphql-request.ts".data, "/plugins/react-query.ts".data,
   "/cache-utils.ts".data]

/-! ### Theorems -/

/-- C3: evaluation of `extractServiceName` at the claim's three inputs.  The
code returns `"userprofiles"` for `"GetUserProfile"` — the greedy `\w+` of
`^Get(\w+)` captures the whole remainder — contradicting the claim (and the
function's own doc comment), while the other two claimed values hold. -/
theorem extractServiceName_at_claim_inputs :
    extractServiceName "GetUserProfile" = "userprofiles" ∧
    extractServiceName "GetUserProfile" ≠ "users" ∧
    extractServiceName "CreateBookingRequest" = "bookingrequests" ∧
    extractServiceName "SubscribeToFeed" = "general" := by
  refine ⟨by decide, by decide, by decide, by decide⟩

/-- C7 counterexample: `extractShortName "UpdateFoo"` is `"getFoo"`, not the
claimed `"getUpdateFoo"`, because the leading `Update` is stripped before the
`get` prefix is attached. -/
theorem extractShortName_updateFoo_counterexample :
    ¬ (extractShortName "UpdateFoo" = "getUpdateFoo") := by
  decide

/-- C7 (amended): `extractShortName` prefixes the stripped remainder with
`get` regardless of the operation kind — every result starts with `get` —
but a leading `Update` is itself stripped, so `extractShortName "UpdateFoo"`
is `"getFoo"`. -/
theorem extractShortName_get_prefixed :
    (∀ operationName : String,
      ∃ rest : List Char, (extractShortName operationName).data = "get".data ++ rest) ∧
    extractShortName "UpdateFoo" = "getFoo" := by
  constructor
  · intro operationName
    unfold extractShortName
    exact ⟨_, String.data_append _ _⟩
  · decide

/-- C8: the NotificationService special case and the general stripping path
produce the documented short names. -/
theorem extractShortName_at_claim_inputs :
    extractShortName "GetNotificationServiceApps" = "getApps" ∧
    extractShortName "GetUserProfile" = "getProfile" := by
  refine ⟨by decide, by decide⟩

/-- C4: a response body whose `errors` field is a nonempty array headed by an
object makes the operation fail with that object's `message` field as the
bare thrown value, a body without an `errors` field resolves with the `data`
field only, and the concrete `boom` response from the spec fails with exactly
`"boom"`. -/
theorem handleResponse_error_and_success
    (json : List (String × JVal)) (fields : List (String × JVal)) (rest : List JVal)
    (herr : List.lookup "errors" json = some (JVal.arr (JVal.obj fields :: rest)))
    (json2 : List (String × JVal)) (hnone : List.lookup "errors" json2 = none) :
    handleResponse json = FetchOutcome.thrown (List.lookup "message" fields) ∧
    handleResponse json2 = FetchOutcome.ok (List.lookup "data" json2) ∧
    handleResponse [("errors", JVal.arr [JVal.obj [("message", JVal.str "boom")]]), ("data", JVal.null)]
      = FetchOutcome.thrown (some (JVal.str "boom")) := by
  refine ⟨?_, ?_, rfl⟩
  · simp [handleResponse, herr, truthy, jindex, destructureField]
  · simp [handleResponse, hnone]

/-- Witness for C4 at the spec's concrete response body. -/
theorem handleResponse_error_and_success_witness :
    List.lookup "errors"
        [("errors", JVal.arr [JVal.obj [("message", JVal.str "boom")]]), ("data", JVal.null)]
      = some (JVal.arr (JVal.obj [("message", JVal.str "boom")] :: [])) ∧
    List.lookup "errors" [("data", JVal.str "fine")] = none ∧
    (handleResponse [("errors", JVal.arr [JVal.obj [("message", JVal.str "boom")]]), ("data", JVal.null)]
        = FetchOutcome.thrown (List.lookup "message" [("message", JVal.str "boom")]) ∧
      handleResponse [("data", JVal.str "fine")] = FetchOutcome.ok (List.lookup "data" [("data", JVal.str "fine")]) ∧
      handleResponse [("errors", JVal.arr [JVal.obj [("message", JVal.str "boom")]]), ("data", JVal.null)]
        = FetchOutcome.thrown (some (JVal.str "boom"))) :=
  ⟨rfl, rfl,
    handleResponse_error_and_success
      [("errors", JVal.arr [JVal.obj [("message", JVal.str "boom")]]), ("data", JVal.null)]
      [("message", JVal.str "boom")] [] rfl [("data", JVal.str "fine")] rfl⟩

/-- C10 counterexample: on the body with an empty `errors` array the code
does not throw an `undefined` message value — destructuring the missing first
element raises a TypeError first. -/
theorem handleResponse_empty_errors_counterexample :
    ¬ (handleResponse [("errors", JVal.arr []), ("data", JVal.str "payload")]
        = FetchOutcome.thrown none) := by
  intro h
  have hv : handleResponse [("errors", JVal.arr []), ("data", JVal.str "payload")]
      = FetchOutcome.typeError := rfl
  rw [hv] at h
  exact FetchOutcome.noConfusion h

/-- C10 (amended): any truthy `errors` value — an empty array included —
makes the operation fail rather than resolve with the `data` field; for the
empty-array body the failure is the TypeError raised by destructuring the
missing first element, not a thrown `undefined` message. -/
theorem handleResponse_empty_errors_still_fails
    (json : List (String × JVal)) (ev : JVal)
    (herr : List.lookup "errors" json = some ev) (htr : truthy ev = true) :
    (∀ d : Option JVal, handleResponse json ≠ FetchOutcome.ok d) ∧
    handleResponse [("errors", JVal.arr []), ("data", JVal.str "payload")]
      = FetchOutcome.typeError := by
  refine ⟨?_, rfl⟩
  intro d
  simp only [handleResponse, herr, htr, if_true]
  cases destructureField (jindex ev 0) "message" <;> simp

/-- Witness for C10 (amended) at the empty-array response body. -/
theorem handleResponse_empty_errors_still_fails_witness :
    List.lookup "errors" [("errors", JVal.arr []), ("data", JVal.str "payload")]
      = some (JVal.arr []) ∧
    truthy (JVal.arr []) = true ∧
    ((∀ d : Option JVal,
        handleResponse [("errors", JVal.arr []), ("data", JVal.str "payload")] ≠ FetchOutcome.ok d) ∧
      handleResponse [("errors", JVal.arr []), ("data", JVal.str "payload")]
        = FetchOutcome.typeError) :=
  ⟨rfl, rfl, handleResponse_empty_errors_still_fails _ _ rfl rfl⟩

/-- Helper: `createQueryKeys` installs exactly the key function
`queryKeyFun op` for every operation in the list. -/
theorem createQueryKeys_lookup (operations : List String) (op : String)
    (hmem : op ∈ operations) :
    List.lookup op (createQueryKeys operations) = some (queryKeyFun op) := by
  simpa [createQueryKeys] using List.lookup_graph queryKeyFun hmem

/-- C5: for every operation in the list given to `createQueryKeys`, the
installed key function returns the one-element key for `undefined` variables
and the two-element key for defined variables, so the no-variables key is
strictly shorter than, and never equal to, any with-variables key. -/
theorem createQueryKeys_key_shapes (operations : List String) (op : String)
    (hmem : op ∈ operations) :
    List.lookup op (createQueryKeys operations) = some (queryKeyFun op) ∧
    queryKeyFun op none = [KeyElem.opStr op] ∧
    (∀ v : Vars,
      queryKeyFun op (some v) = [KeyElem.opStr op, KeyElem.varsObj v] ∧
      (queryKeyFun op none).length < (queryKeyFun op (some v)).length ∧
      queryKeyFun op none ≠ queryKeyFun op (some v)) := by
  refine ⟨createQueryKeys_lookup operations op hmem, rfl, fun v => ⟨rfl, ?_, ?_⟩⟩
  · simp [queryKeyFun]
  · simp [queryKeyFun]

/-- Witness for C5 at the spec's concrete operation list. -/
theorem createQueryKeys_key_shapes_witness :
    "GetUser" ∈ ["GetUser"] ∧
    (List.lookup "GetUser" (createQueryKeys ["GetUser"]) = some (queryKeyFun "GetUser") ∧
      queryKeyFun "GetUser" none = [KeyElem.opStr "GetUser"] ∧
      (∀ v : Vars,
        queryKeyFun "GetUser" (some v) = [KeyElem.opStr "GetUser", KeyElem.varsObj v] ∧
        (queryKeyFun "GetUser" none).length < (queryKeyFun "GetUser" (some v)).length ∧
        queryKeyFun "GetUser" none ≠ queryKeyFun "GetUser" (some v))) :=
  ⟨by decide, createQueryKeys_key_shapes ["GetUser"] "GetUser" (by decide)⟩

/-- Helper: a record without key `k` looks up to `undefined` at `k`. -/
theorem lookup_eq_none_of_hasKey_false {α : Type} (o : List (String × α)) (k : String)
    (h : hasKey o k = false) : List.lookup k o = none := by
  rw [List.lookup_eq_none_iff]
  intro p hp
  simp only [hasKey, List.any_eq_false, decide_eq_true_eq] at h
  simpa [bne_iff_ne] using fun hk => h p hp (by rw [hk])

/-- Helper: filtering with a predicate that keeps every binding of key `k`
preserves lookup at `k`. -/
theorem lookup_filter_of_kept {α : Type} (o : List (String × α)) (p : String × α → Bool)
    (k : String) (hp : ∀ v, p (k, v) = true) :
    List.lookup k (o.filter p) = List.lookup k o := by
  induction o with
  | nil => rfl
  | cons e rest ih =>
    obtain ⟨k', v'⟩ := e
    by_cases he : k = k'
    · subst he
      rw [List.filter_cons, if_pos (hp v')]
      simp [List.lookup_cons]
    · have hbe : (k == k') = false := by simpa using he
      rw [List.filter_cons]
      by_cases hpe : p (k', v') = true
      · rw [if_pos hpe]
        simp [List.lookup_cons, hbe, ih]
      · rw [if_neg hpe]
        simp [List.lookup_cons, hbe, ih]

/-- Helper: lookup skips a left part in which the key is absent. -/
theorem lookup_append_of_none {α : Type} (x y : List (String × α)) (k : String)
    (hx : List.lookup k x = none) :
    List.lookup k (x ++ y) = List.lookup k y := by
  rw [List.lookup_append, hx, Option.none_or]

/-- Helper: the override map of a spread preserves keys, so a key absent from
`a` is absent from the overridden copy of `a`. -/
theorem lookup_map_override_none {α : Type} (a b : List (String × α)) (k : String)
    (h : hasKey a k = false) :
    List.lookup k (a.map (fun e =>
      match List.lookup e.1 b with
      | some v => (e.1, v)
      | none => e)) = none := by
  rw [List.lookup_eq_none_iff]
  intro p hp
  obtain ⟨e, he, rfl⟩ := List.mem_map.mp hp
  simp only [hasKey, List.any_eq_false, decide_eq_true_eq] at h
  have hek : ¬ k = e.1 := fun hk => h e he hk.symm
  cases hv : List.lookup e.1 b <;> simpa [hv, bne_iff_ne] using hek

/-- Helper: a spread `{...a, ...b}` looked up at a key absent from `a` reads
straight through to `b`. -/
theorem spreadMerge_lookup_absent {α : Type} (a b : List (String × α)) (k : String)
    (h : hasKey a k = false) :
    List.lookup k (spreadMerge a b) = List.lookup k b := by
  unfold spreadMerge
  rw [lookup_append_of_none _ _ _ (lookup_map_override_none a b k h)]
  exact lookup_filter_of_kept b _ k (fun v => by simp [hasKey] at h ⊢; simpa using h)

/-- Helper: a singleton spread base is overridden by `o` at its own key when
`o` binds it, and supplies the default otherwise. -/
theorem spreadMerge_single_self {α : Type} (k : String) (d : α) (o : List (String × α)) :
    List.lookup k (spreadMerge [(k, d)] o) = some ((List.lookup k o).getD d) := by
  cases hv : List.lookup k o <;> simp [spreadMerge, hv]

/-- Helper: a singleton spread base leaves every other key reading from `o`. -/
theorem spreadMerge_single_other {α : Type} (k kd : String) (d : α) (o : List (String × α))
    (hne : k ≠ kd) :
    List.lookup k (spreadMerge [(kd, d)] o) = List.lookup k o := by
  have hkept : List.lookup k (o.filter (fun e => ! hasKey [(kd, d)] e.1)) = List.lookup k o :=
    lookup_filter_of_kept o _ k (fun v => by simp [hasKey, hne, Ne.symm hne])
  have hbe : (k == kd) = false := by simpa using hne
  cases hv : List.lookup kd o <;>
    simp [spreadMerge, hv, List.lookup_cons, hbe, hkept]

/-- C6: when the fetcher's `options` argument has neither a `customHeaders`
nor an `endpoint` key, the whole record is treated as a flat header map
merged on top of the default `Content-Type` (which its entries may
override) and the request goes to the configured gateway endpoint; when
either key is present, `options` is the wrapper form and the request target
defaults to the gateway endpoint unless a nonempty `endpoint` override is
supplied, while `customHeaders` supplies the merged header map. -/
theorem fetcher_options_disambiguation :
    (∀ (gw q : String) (v : Option JVal) (o : List (String × OptVal)),
      hasKey o "customHeaders" = false → hasKey o "endpoint" = false →
      (fetcherRequest gw q v (some o)).url = gw ∧
      (fetcherRequest gw q v (some o)).headers
        = spreadMerge [("Content-Type", OptVal.str "application/json")] o ∧
      (∀ k : String, k ≠ "Content-Type" →
        List.lookup k (fetcherRequest gw q v (some o)).headers = List.lookup k o) ∧
      List.lookup "Content-Type" (fetcherRequest gw q v (some o)).headers
        = some ((List.lookup "Content-Type" o).getD (OptVal.str "application/json"))) ∧
    (∀ (gw q : String) (v : Option JVal) (o : List (String × OptVal)),
      (hasKey o "customHeaders" || hasKey o "endpoint") = true →
      (hasKey o "endpoint" = false → (fetcherRequest gw q v (some o)).url = gw) ∧
      (∀ s : String, s ≠ "" → List.lookup "endpoint" o = some (OptVal.str s) →
        (fetcherRequest gw q v (some o)).url = s) ∧
      (∀ entries : List (String × String),
        List.lookup "customHeaders" o = some (OptVal.hdrs entries) →
        (fetcherRequest gw q v (some o)).headers
          = spreadMerge [("Content-Type", OptVal.str "application/json")]
              (entries.map (fun e => (e.1, OptVal.str e.2))))) := by
  constructor
  · intro gw q v o h1 h2
    refine ⟨by simp [fetcherRequest, h1, h2], by simp [fetcherRequest, h1, h2], ?_, ?_⟩
    · intro k hk
      have hh : (fetcherRequest gw q v (some o)).headers
          = spreadMerge [("Content-Type", OptVal.str "application/json")] o := by
        simp [fetcherRequest, h1, h2]
      rw [hh]
      exact spreadMerge_single_other k "Content-Type" _ o hk
    · have hh : (fetcherRequest gw q v (some o)).headers
          = spreadMerge [("Content-Type", OptVal.str "application/json")] o := by
        simp [fetcherRequest, h1, h2]
      rw [hh]
      exact spreadMerge_single_self "Content-Type" _ o
  · intro gw q v o hcond
    refine ⟨?_, ?_, ?_⟩
    · intro h2
      simp [fetcherRequest, hcond, lookup_eq_none_of_hasKey_false o "endpoint" h2]
    · intro s hs hl
      simp [fetcherRequest, hcond, hl, hs]
    · intro entries hl
      simp [fetcherRequest, hcond, hl]

/-- Witness for C6 at a flat header record and at a wrapper record. -/
theorem fetcher_options_disambiguation_witness :
    hasKey [("X-Api-Key", OptVal.str "k1")] "customHeaders" = false ∧
    hasKey [("X-Api-Key", OptVal.str "k1")] "endpoint" = false ∧
    ((fetcherRequest "https://gw" "query Q" none (some [("X-Api-Key", OptVal.str "k1")])).url
        = "https://gw" ∧
      (fetcherRequest "https://gw" "query Q" none (some [("X-Api-Key", OptVal.str "k1")])).headers
        = spreadMerge [("Content-Type", OptVal.str "application/json")]
            [("X-Api-Key", OptVal.str "k1")] ∧
      (∀ k : String, k ≠ "Content-Type" →
        List.lookup k
            (fetcherRequest "https://gw" "query Q" none
              (some [("X-Api-Key", OptVal.str "k1")])).headers
          = List.lookup k [("X-Api-Key", OptVal.str "k1")]) ∧
      List.lookup "Content-Type"
          (fetcherRequest "https://gw" "query Q" none
            (some [("X-Api-Key", OptVal.str "k1")])).headers
        = some ((List.lookup "Content-Type" [("X-Api-Key", OptVal.str "k1")]).getD
            (OptVal.str "application/json"))) ∧
    (hasKey [("endpoint", OptVal.str "https://override")] "customHeaders" ||
        hasKey [("endpoint", OptVal.str "https://override")] "endpoint") = true ∧
    ((hasKey [("endpoint", OptVal.str "https://override")] "endpoint" = false →
        (fetcherRequest "https://gw" "query Q" none
          (some [("endpoint", OptVal.str "https://override")])).url = "https://gw") ∧
      (∀ s : String, s ≠ "" →
        List.lookup "endpoint" [("endpoint", OptVal.str "https://override")]
          = some (OptVal.str s) →
        (fetcherRequest "https://gw" "query Q" none
          (some [("endpoint", OptVal.str "https://override")])).url = s) ∧
      (∀ entries : List (String × String),
        List.lookup "customHeaders" [("endpoint", OptVal.str "https://override")]
          = some (OptVal.hdrs entries) →
        (fetcherRequest "https://gw" "query Q" none
            (some [("endpoint", OptVal.str "https://override")])).headers
          = spreadMerge [("Content-Type", OptVal.str "application/json")]
              (entries.map (fun e => (e.1, OptVal.str e.2))))) :=
  ⟨rfl, rfl,
    fetcher_options_disambiguation.1 "https://gw" "query Q" none
      [("X-Api-Key", OptVal.str "k1")] rfl rfl,
    rfl,
    fetcher_options_disambiguation.2 "https://gw" "query Q" none
      [("endpoint", OptVal.str "https://override")] rfl⟩

/-- Helper: a pointwise-equal predicate gives the same `all`. -/
theorem all_congrB {α : Type} (l : List α) (f g : α → Bool)
    (h : ∀ x ∈ l, f x = g x) : l.all f = l.all g := by
  induction l with
  | nil => rfl
  | cons a rest ih =>
    simp only [List.all_cons, h a (List.mem_cons_self a rest)]
    rw [ih (fun x hx => h x (List.mem_cons_of_mem a hx))]

/-- Helper: matching a one-element query key is equality of the key's first
segment. -/
theorem leadsWith_singleton (x : KeyElem) (l : List KeyElem) :
    leadsWith [x] l = decide (l.head? = some x) := by
  cases l <;> simp [leadsWith, eq_comm]

/-- Helper: the source's predicate closure agrees with the spec-side
one-lookup-per-filter formulation. -/
theorem filterPred_eq (fs : Vars) (q : CacheQuery) :
    filterPred fs q
      = fs.all (fun kv =>
          decide ((varsOfKey q.queryKey).bind (fun vs => List.lookup kv.1 vs) = some kv.2)) := by
  apply all_congrB
  intro kv _
  cases h : varsOfKey q.queryKey <;> simp [filterPred, h]

/-- C2: the `invalidate` facade method stales exactly the entries described
by the specification — with absent or empty filters, every entry whose key's
first segment is the operation name regardless of variables; with nonempty
filters, exactly the entries of that operation whose stored variables
segment satisfies every filter pair by exact equality (entries whose
variables lack a filter key never match).  Concretely, `invalidate` with
filter `id = 1` leaves the `id = 2` entry and the entry without an `id`
variable untouched, while `invalidate` with no filters stales both `id`
entries and the no-`id` entry of the same operation, never entries of other
operations. -/
theorem invalidate_matches_spec :
    (∀ (opName : String) (filters : Option Vars) (qc : ClientState),
      opInvalidate opName filters qc
        = qc.map (fun q =>
            if specShouldInvalidate opName filters q then { q with stale := true } else q)) ∧
    (∀ (queryKeys : List (String × (Option Vars → List KeyElem))) (opName : String),
      (mkOperationUtils queryKeys opName).invalidate = opInvalidate opName) ∧
    ((opInvalidate "GetUser" (some [("id", JPrim.num 1)])
        [{ queryKey := [KeyElem.opStr "GetUser", KeyElem.varsObj [("id", JPrim.num 1)]] },
         { queryKey := [KeyElem.opStr "GetUser", KeyElem.varsObj [("id", JPrim.num 2)]] },
         { queryKey := [KeyElem.opStr "GetUser", KeyElem.varsObj [("name", JPrim.str "x")]] },
         { queryKey := [KeyElem.opStr "Other"] }]).map CacheQuery.stale
      = [true, false, false, false]) ∧
    ((opInvalidate "GetUser" none
        [{ queryKey := [KeyElem.opStr "GetUser", KeyElem.varsObj [("id", JPrim.num 1)]] },
         { queryKey := [KeyElem.opStr "GetUser", KeyElem.varsObj [("id", JPrim.num 2)]] },
         { queryKey := [KeyElem.opStr "GetUser", KeyElem.varsObj [("name", JPrim.str "x")]] },
         { queryKey := [KeyElem.opStr "Other"] }]).map CacheQuery.stale
      = [true, true, true, false]) := by
  refine ⟨?_, fun queryKeys opName => rfl, by decide, by decide⟩
  intro opName filters qc
  cases filters with
  | none =>
    unfold opInvalidate invalidateQueries
    apply List.map_congr_left
    intro q _
    rw [show queryFilterMatches [KeyElem.opStr opName] none q
        = specShouldInvalidate opName none q by
      simp [queryFilterMatches, leadsWith_singleton, specShouldInvalidate]]
  | some fs =>
    cases fs with
    | nil =>
      rw [show opInvalidate opName (some []) qc
          = invalidateQueries [KeyElem.opStr opName] none qc by simp [opInvalidate]]
      unfold invalidateQueries
      apply List.map_congr_left
      intro q _
      rw [show queryFilterMatches [KeyElem.opStr opName] none q
          = specShouldInvalidate opName (some []) q by
        simp [queryFilterMatches, leadsWith_singleton, specShouldInvalidate]]
    | cons kv rest =>
      rw [show opInvalidate opName (some (kv :: rest)) qc
          = invalidateQueries [KeyElem.opStr opName] (some (filterPred (kv :: rest))) qc by
        simp [opInvalidate]]
      unfold invalidateQueries
      apply List.map_congr_left
      intro q _
      rw [show queryFilterMatches [KeyElem.opStr opName]
            (some (filterPred (kv :: rest))) q
          = specShouldInvalidate opName (some (kv :: rest)) q by
        simp [queryFilterMatches, leadsWith_singleton, specShouldInvalidate, filterPred_eq]]

/-- Helper: a successful record lookup exhibits a binding in the record. -/
theorem mem_of_lookup_eq_some {α β : Type} [BEq α] [LawfulBEq α]
    {l : List (α × β)} {k : α} {b : β} (h : List.lookup k l = some b) : (k, b) ∈ l := by
  obtain ⟨l₁, l₂, rfl, -⟩ := List.lookup_eq_some_iff.mp h
  exact List.mem_append.mpr (Or.inr (List.mem_cons_self _ _))

/-- Helper: updating the entry at `key` makes a subsequent exact read at
`key` return the written data, provided some entry carries `key`. -/
theorem getQueryData_after_update (key : List KeyElem) (d : JVal) (qc : ClientState)
    (h : qc.any (fun q => decide (q.queryKey = key)) = true) :
    getQueryData key
      (qc.map (fun q => if q.queryKey = key then { q with data := some d } else q)) = some d := by
  induction qc with
  | nil => simp at h
  | cons q rest ih =>
    rw [List.map_cons]
    by_cases hq : q.queryKey = key
    · rw [if_pos hq]
      unfold getQueryData
      rw [List.find?_cons_of_pos _ (by simp [hq])]
    · have hrest : rest.any (fun q => decide (q.queryKey = key)) = true := by
        simpa [List.any_cons, hq] using h
      rw [if_neg hq]
      unfold getQueryData
      rw [List.find?_cons_of_neg _ (by simp [hq])]
      exact ih hrest

/-- Helper: inserting a fresh entry at `key` makes a subsequent exact read at
`key` return the written data, provided no existing entry carries `key`. -/
theorem getQueryData_after_insert (key : List KeyElem) (d : JVal) (qc : ClientState)
    (h : qc.any (fun q => decide (q.queryKey = key)) = false) :
    getQueryData key (qc ++ [{ queryKey := key, data := some d }]) = some d := by
  induction qc with
  | nil =>
    rw [List.nil_append]
    unfold getQueryData
    rw [List.find?_cons_of_pos _ (by simp)]
  | cons q rest ih =>
    have hq : ¬ q.queryKey = key := by
      intro hk
      simp [List.any_cons, hk] at h
    have hrest : rest.any (fun q => decide (q.queryKey = key)) = false := by
      simpa [List.any_cons, hq] using h
    rw [List.cons_append]
    unfold getQueryData
    rw [List.find?_cons_of_neg _ (by simp [hq])]
    exact ih hrest

/-- Helper: the exact-key write/read round trip of the cache-client model. -/
theorem getQueryData_setQueryData (key : List KeyElem) (d : JVal) (qc : ClientState) :
    getQueryData key (setQueryData key d qc) = some d := by
  unfold setQueryData
  by_cases h : qc.any (fun q => decide (q.queryKey = key)) = true
  · rw [if_pos h]
    exact getQueryData_after_update key d qc h
  · rw [if_neg h]
    exact getQueryData_after_insert key d qc (by simpa using h)

/-- Helper: every handle reachable inside the built utils object is the
per-operation object literal for some operation name. -/
theorem lookupHandle_shape (config : UtilsConfig) (groupName opKey : String) (h : OpHandle)
    (hh : lookupHandle (createUtilsFactory config) groupName opKey = some h) :
    ∃ opName : String, h = mkOperationUtils config.queryKeys opName := by
  obtain ⟨m, hm, hop⟩ := Option.bind_eq_some.mp hh
  have hmem : (groupName, m) ∈ createUtilsFactory config := mem_of_lookup_eq_some hm
  obtain ⟨g, hg, hge⟩ := List.mem_map.mp hmem
  have hm2 : m = g.2.map (fun opName =>
      (camelCase opName, mkOperationUtils config.queryKeys opName)) :=
    (congrArg Prod.snd hge).symm
  subst hm2
  have hmem2 : (opKey, h) ∈ g.2.map (fun opName =>
      (camelCase opName, mkOperationUtils config.queryKeys opName)) :=
    mem_of_lookup_eq_some hop
  obtain ⟨opName, hon, hoe⟩ := List.mem_map.mp hmem2
  exact ⟨opName, (congrArg Prod.snd hoe).symm⟩

/-- C9: for every operation handle of a built Utils Object and every
variables value, `setData` followed immediately by `getData` with the same
variables reads back exactly the written data — both route through the same
cache key. -/
theorem setData_getData_roundtrip (config : UtilsConfig) (groupName opKey : String)
    (h : OpHandle)
    (hh : lookupHandle (createUtilsFactory config) groupName opKey = some h)
    (d : JVal) (v : Option Vars) (qc : ClientState) :
    h.getData v (h.setData d v qc) = some d := by
  obtain ⟨opName, rfl⟩ := lookupHandle_shape config groupName opKey h hh
  exact getQueryData_setQueryData (lookupQueryKey config.queryKeys opName v) d qc

/-- Witness for C9 at the spec's concrete example: write then read of
`(name: A)` under variables `(id: 1)` for operation `GetUser` in group
`users`. -/
theorem setData_getData_roundtrip_witness :
    lookupHandle
        (createUtilsFactory
          { queryKeys := createQueryKeys ["GetUser"], groups := [("users", ["GetUser"])] })
        "users" "getUser"
      = some (mkOperationUtils (createQueryKeys ["GetUser"]) "GetUser") ∧
    (mkOperationUtils (createQueryKeys ["GetUser"]) "GetUser").getData
        (some [("id", JPrim.num 1)])
        ((mkOperationUtils (createQueryKeys ["GetUser"]) "GetUser").setData
          (JVal.obj [("name", JVal.str "A")]) (some [("id", JPrim.num 1)]) [])
      = some (JVal.obj [("name", JVal.str "A")]) :=
  ⟨rfl,
    setData_getData_roundtrip
      { queryKeys := createQueryKeys ["GetUser"], groups := [("users", ["GetUser"])] }
      "users" "getUser" (mkOperationUtils (createQueryKeys ["GetUser"]) "GetUser") rfl
      (JVal.obj [("name", JVal.str "A")]) (some [("id", JPrim.num 1)]) []⟩

/-- Helper: no per-endpoint path suffix is a proper suffix of another. -/
theorem pathSuffixes_suffix_eq :
    ∀ s₁ ∈ pathSuffixes, ∀ s₂ ∈ pathSuffixes, s₁ <:+ s₂ → s₁ = s₂ := by
  decide

/-- Helper: the four per-endpoint path suffixes are pairwise distinct. -/
theorem pathSuffixes_nodup : pathSuffixes.Nodup := by
  decide

/-- Helper: no per-endpoint path suffix ends the README key's tail. -/
theorem pathSuffixes_not_suffix_readme :
    ∀ s ∈ pathSuffixes, ¬ (s <:+ "../README.md".data) := by
  decide

/-- Helper: endpoint-relative output paths determine the endpoint name and
the suffix — two endpoint keys coincide only for the same name and target. -/
theorem pathKey_inj {b n₁ n₂ : String} {s₁ s₂ : List Char}
    (h₁ : s₁ ∈ pathSuffixes) (h₂ : s₂ ∈ pathSuffixes)
    (he : pathKey b n₁ s₁ = pathKey b n₂ s₂) : n₁ = n₂ ∧ s₁ = s₂ := by
  unfold pathKey at he
  have h' := List.append_cancel_left he
  injection h' with h0 h''
  have hs₁ : s₁ <:+ n₂.data ++ s₂ := h'' ▸ List.suffix_append n₁.data s₁
  have hs₂ : s₂ <:+ n₂.data ++ s₂ := List.suffix_append n₂.data s₂
  have hseq : s₁ = s₂ := by
    rcases List.suffix_or_suffix_of_suffix hs₁ hs₂ with h | h
    · exact pathSuffixes_suffix_eq s₁ h₁ s₂ h₂ h
    · exact (pathSuffixes_suffix_eq s₂ h₂ s₁ h₁ h).symm
  subst hseq
  exact ⟨String.ext_iff.mpr (List.append_cancel_right h''), rfl⟩

/-- Helper: no endpoint-relative output path coincides with the README key. -/
theorem pathKey_ne_readme {b n : String} {s : List Char} (hs : s ∈ pathSuffixes) :
    pathKey b n s ≠ (b ++ "/../README.md").data := by
  intro he
  rw [String.data_append] at he
  unfold pathKey at he
  have h' := List.append_cancel_left he
  rw [show "/../README.md".data = '/' :: "../README.md".data from rfl] at h'
  injection h' with h0 h''
  exact pathSuffixes_not_suffix_readme s hs (h'' ▸ List.suffix_append n.data s)

/-- Helper: the four output-path keys of one endpoint, at the character-list
level, are the four suffixes appended to the endpoint-relative stem. -/
theorem endpointTargets_keysData (b n : String) (c : EndpointConfig) :
    ((endpointTargets b n c).map Prod.fst).map String.data
      = pathSuffixes.map (pathKey b n) := by
  simp [endpointTargets, pathSuffixes, pathKey, String.data_append, List.append_assoc,
    List.singleton_append,
    show "/".data = ['/'] from rfl,
    show "/plugins".data ++ "/graphql-request.ts".data = "/plugins/graphql-request.ts".data
      from by decide,
    show "/plugins".data ++ "/react-query.ts".data = "/plugins/react-query.ts".data
      from by decide]

/-- Helper: the four output-path keys of one endpoint are pairwise distinct. -/
theorem endpointKeysData_nodup (b n : String) :
    (pathSuffixes.map (pathKey b n)).Nodup :=
  List.Nodup.map_on
    (fun _ h₁ _ h₂ he => (pathKey_inj h₁ h₂ he).2)
    pathSuffixes_nodup

/-- Helper: a list of four-element blocks has length four times the number
of blocks. -/
theorem flatMap_length_four {α β : Type} (l : List α) (f : α → List β)
    (h : ∀ x ∈ l, (f x).length = 4) :
    (l.flatMap f).length = 4 * l.length := by
  induction l with
  | nil => rfl
  | cons a rest ih =>
    rw [List.flatMap_cons, List.length_append, h a (List.mem_cons_self a rest),
      ih (fun x hx => h x (List.mem_cons_of_mem a hx)), List.length_cons]
    omega

/-- C1: for an endpoints map (keys unique by construction), the generation
plan has exactly four targets per endpoint plus one documentation target when
the map is nonempty, all output-path keys pairwise distinct; for the empty
map the plan is empty — the documentation target is omitted and no error is
raised. -/
theorem createCodegenConfig_plan (options : CodegenOptions)
    (hnd : (options.endpoints.map Prod.fst).Nodup) :
    (createCodegenConfig options).generates.length
        = 4 * options.endpoints.length + (if options.endpoints.isEmpty then 0 else 1) ∧
    ((createCodegenConfig options).generates.map Prod.fst).Nodup ∧
    (options.endpoints = [] → (createCodegenConfig options).generates = []) := by
  obtain ⟨endpoints, baseOpt, rqv, appOpt⟩ := options
  cases endpoints with
  | nil =>
    refine ⟨by simp [createCodegenConfig], by simp [createCodegenConfig], fun _ => by
      simp [createCodegenConfig]⟩
  | cons e0 rest =>
    have hsplit : ∃ T : GenTarget,
        (createCodegenConfig ⟨e0 :: rest, baseOpt, rqv, appOpt⟩).generates
          = (e0 :: rest).flatMap (fun p =>
              endpointTargets (baseOpt.getD "src/libs/gql/__gen__") p.1 p.2)
            ++ [((baseOpt.getD "src/libs/gql/__gen__") ++ "/../README.md", T)] :=
      ⟨_, rfl⟩
    obtain ⟨T, hgen⟩ := hsplit
    rw [hgen]
    refine ⟨?_, ?_, fun h => absurd h (List.cons_ne_nil e0 rest)⟩
    · rw [List.length_append,
        flatMap_length_four (e0 :: rest)
          (fun p => endpointTargets (baseOpt.getD "src/libs/gql/__gen__") p.1 p.2)
          (fun x _ => rfl)]
      simp
    · apply List.Nodup.of_map String.data
      rw [List.map_append, List.map_append, List.map_flatMap, List.map_flatMap]
      have hfun : (fun p : String × EndpointConfig =>
            List.map String.data
              (List.map Prod.fst (endpointTargets (baseOpt.getD "src/libs/gql/__gen__") p.1 p.2)))
          = (fun p : String × EndpointConfig =>
              pathSuffixes.map (pathKey (baseOpt.getD "src/libs/gql/__gen__") p.1)) :=
        funext fun p => endpointTargets_keysData _ p.1 p.2
      rw [hfun]
      apply List.nodup_append.mpr
      refine ⟨?_, by simp, ?_⟩
      · apply List.nodup_flatMap.mpr
        refine ⟨fun p _ => endpointKeysData_nodup _ p.1, ?_⟩
        have hpw : List.Pairwise
            (fun p q : String × EndpointConfig => p.1 ≠ q.1) (e0 :: rest) :=
          List.pairwise_map.mp hnd
        refine hpw.imp ?_
        intro p q hne x hx₁ hx₂
        obtain ⟨s₁, hs₁, hx₁e⟩ := List.mem_map.mp hx₁
        obtain ⟨s₂, hs₂, hx₂e⟩ := List.mem_map.mp hx₂
        exact hne (pathKey_inj hs₁ hs₂ (hx₁e.trans hx₂e.symm)).1
      · intro x hx hk
        simp only [List.map_cons, List.map_nil, List.mem_singleton] at hk
        obtain ⟨p, hp, hxp⟩ := List.mem_flatMap.mp hx
        obtain ⟨s, hs, hxe⟩ := List.mem_map.mp hxp
        exact pathKey_ne_readme hs (hxe.trans hk)

/-- Witness for C1 at a two-endpoint map with distinct names. -/
theorem createCodegenConfig_plan_witness :
    (((CodegenOptions.mk
        [("users",
            { schema := "https://s1", documentsPath := "docs1/**",
              gatewayEndpoint := "https://g1" }),
          ("bookings",
            { schema := "https://s2", documentsPath := "docs2/**",
              gatewayEndpoint := "https://g2" })]
        none none none).endpoints.map Prod.fst).Nodup) ∧
    ((createCodegenConfig (CodegenOptions.mk
        [("users",
            { schema := "https://s1", documentsPath := "docs1/**",
              gatewayEndpoint := "https://g1" }),
          ("bookings",
            { schema := "https://s2", documentsPath := "docs2/**",
              gatewayEndpoint := "https://g2" })]
        none none none)).generates.length
        = 4 * (CodegenOptions.mk
            [("users",
                { schema := "https://s1", documentsPath := "docs1/**",
                  gatewayEndpoint := "https://g1" }),
              ("bookings",
                { schema := "https://s2", documentsPath := "docs2/**",
                  gatewayEndpoint := "https://g2" })]
            none none none).endpoints.length
          + (if (CodegenOptions.mk
                [("users",
                    { schema := "https://s1", documentsPath := "docs1/**",
                      gatewayEndpoint := "https://g1" }),
                  ("bookings",
                    { schema := "https://s2", documentsPath := "docs2/**",
                      gatewayEndpoint := "https://g2" })]
                none none none).endpoints.isEmpty then 0 else 1) ∧
      ((createCodegenConfig (CodegenOptions.mk
          [("users",
              { schema := "https://s1", documentsPath := "docs1/**",
                gatewayEndpoint := "https://g1" }),
            ("bookings",
              { schema := "https://s2", documentsPath := "docs2/**",
                gatewayEndpoint := "https://g2" })]
          none none none)).generates.map Prod.fst).Nodup ∧
      ((CodegenOptions.mk
          [("users",
              { schema := "https://s1", documentsPath := "docs1/**",
                gatewayEndpoint := "https://g1" }),
            ("bookings",
              { schema := "https://s2", documentsPath := "docs2/**",
                gatewayEndpoint := "https://g2" })]
          none none none).endpoints = [] →
        (createCodegenConfig (CodegenOptions.mk
            [("users",
                { schema := "https://s1", documentsPath := "docs1/**",
                  gatewayEndpoint := "https://g1" }),
              ("bookings",
                { schema := "https://s2", documentsPath := "docs2/**",
                  gatewayEndpoint := "https://g2" })]
            none none none)).generates = [])) :=
  ⟨by decide,
    createCodegenConfig_plan
      (CodegenOptions.mk
        [("users",
            { schema := "https://s1", documentsPath := "docs1/**",
              gatewayEndpoint := "https://g1" }),
          ("bookings",
            { schema := "https://s2", documentsPath := "docs2/**",
              gatewayEndpoint := "https://g2" })]
        none none none)
      (by decide)⟩
